import Mathlib

/-!
Verification of the gcp-guardrail policy-evaluation core: the rego
Evaluator (pkg/rego) and the admission-gateway HTTP handler
(controller/main.go), shallowly embedded in Lean.

External collaborators are modelled as abstract deterministic seams,
following the capability interface of the design: the OPA query engine
is a function from a query string, the loaded modules, the store and the
input to either an error or a possibly-undefined list of message values;
the kubernetes deserializer is a function from a body to either an error
or a decoded review; the rego file parser is a function from a path and
file content to either an error or a parsed module.
-/

namespace GcpGuardrail

/-- One policy violation, as in pkg/rego: message, severity tag and the
originating package path. -/
structure Violation where
  Message : String
  Severity : String
  Policy : String
  deriving DecidableEq, Repr

/-- Result of one policy evaluation, mirroring the EvaluationResult
struct of pkg/rego field for field. -/
structure EvaluationResult where
  Violations : List Violation
  Warnings : List Violation
  PassCount : Nat
  FailCount : Nat
  WarnCount : Nat
  deriving DecidableEq, Repr

/-- A parsed policy module. The evaluator only ever reads its declared
package path (module.Package.Path), so the embedding keeps exactly
that. -/
structure Module where
  packagePath : List String
  deriving DecidableEq, Repr

/-- The in-memory auxiliary data store (inmem.New in the source); its
contents are never read by any code path under verification. -/
structure Store where
  contents : List (String × String)
  deriving DecidableEq, Repr

/-- A fresh empty store, as built by inmem.New(). -/
def Store.new : Store := ⟨[]⟩

/-- The Evaluator state of pkg/rego: the configured policy directories,
the map from file path to parsed module (embedded as an association
list) and the store. The context field carries no data relevant to the
verified behaviour and is omitted. -/
structure Evaluator where
  policyDirs : List String
  modules : List (String × Module)
  store : Store
  deriving DecidableEq, Repr

/-- The external rule-evaluation backend (the OPA rego package), a
deterministic function of the query string, the module set, the store
and the input. A result of none models an empty result set (the query
is undefined); some msgs models a defined multi-value result whose
values are the produced message strings. -/
structure Engine (α : Type) where
  eval : String → List (String × Module) → Store → α → Except String (Option (List String))

/-- Turn one raw query result into the list of message strings the Go
code extracts from it: an empty result set or a nil value contributes
nothing. -/
def extractMessages : Option (List String) → List String
  | none => []
  | some msgs => msgs

/-- Evaluator.Evaluate of pkg/rego: runs the package query, the deny
query and the warn query in order, propagating the first engine error
with the same wrapping as the source, then builds the result from the
extracted deny and warn messages. -/
def Evaluator.Evaluate {α : Type} (e : Evaluator) (engine : Engine α)
    (packagePath : String) (input : α) : Except String EvaluationResult :=
  match engine.eval ("data." ++ packagePath) e.modules e.store input with
  | .error err => .error ("evaluation failed: " ++ err)
  | .ok _ =>
    match engine.eval ("data." ++ packagePath ++ ".deny") e.modules e.store input with
    | .error err => .error ("deny rule evaluation failed: " ++ err)
    | .ok denyVal =>
      match engine.eval ("data." ++ packagePath ++ ".warn") e.modules e.store input with
      | .error err => .error ("warning rule evaluation failed: " ++ err)
      | .ok warnVal =>
        let violations := (extractMessages denyVal).map
          (fun m => { Message := m, Severity := "ERROR", Policy := packagePath })
        let warnings := (extractMessages warnVal).map
          (fun m => { Message := m, Severity := "WARNING", Policy := packagePath })
        .ok { Violations := violations, Warnings := warnings,
              PassCount := 0,
              FailCount := violations.length, WarnCount := warnings.length }

/-- State-passing form of Evaluator.Evaluate: the method body of the
source performs no assignment through the receiver, so the embedding
threads the evaluator through each step and returns it alongside the
result. -/
def Evaluator.EvaluateSt {α : Type} (e : Evaluator) (engine : Engine α)
    (packagePath : String) (input : α) :
    Except String EvaluationResult × Evaluator :=
  match engine.eval ("data." ++ packagePath) e.modules e.store input with
  | .error err => (.error ("evaluation failed: " ++ err), e)
  | .ok _ =>
    match engine.eval ("data." ++ packagePath ++ ".deny") e.modules e.store input with
    | .error err => (.error ("deny rule evaluation failed: " ++ err), e)
    | .ok denyVal =>
      match engine.eval ("data." ++ packagePath ++ ".warn") e.modules e.store input with
      | .error err => (.error ("warning rule evaluation failed: " ++ err), e)
      | .ok warnVal =>
        let violations := (extractMessages denyVal).map
          (fun m => { Message := m, Severity := "ERROR", Policy := packagePath })
        let warnings := (extractMessages warnVal).map
          (fun m => { Message := m, Severity := "WARNING", Policy := packagePath })
        (.ok { Violations := violations, Warnings := warnings,
               PassCount := 0,
               FailCount := violations.length, WarnCount := warnings.length }, e)

/-- The package path a module declares, joined with dots exactly as
EvaluateAll joins module.Package.Path. -/
def packagePathOf (m : Module) : String :=
  String.intercalate "." m.packagePath

/-- The distinct package paths of the loaded modules, as collected by
the packagePaths set in EvaluateAll. The Go map iteration order is
unspecified; the embedding fixes one order. -/
def distinctPackagePaths (e : Evaluator) : List String :=
  (e.modules.map (fun pm => packagePathOf pm.2)).dedup

/-- The per-package loop of EvaluateAll: evaluate each package in turn,
returning on the first error with the same wrapping as the source. -/
def evalPackageList {α : Type} (e : Evaluator) (engine : Engine α) (input : α) :
    List String → Except String (List EvaluationResult)
  | [] => .ok []
  | p :: ps =>
    match e.Evaluate engine p input with
    | .error err => .error ("failed to evaluate package " ++ p ++ ": " ++ err)
    | .ok r =>
      match evalPackageList e engine input ps with
      | .error err => .error err
      | .ok rs => .ok (r :: rs)

/-- Evaluator.EvaluateAll of pkg/rego: evaluate the input against every
distinct package path of the loaded modules. -/
def Evaluator.EvaluateAll {α : Type} (e : Evaluator) (engine : Engine α)
    (input : α) : Except String (List EvaluationResult) :=
  evalPackageList e engine input (distinctPackagePaths e)

/-- A package path is unresolved when no loaded module declares it. -/
def pkgUnresolved (mods : List (String × Module)) (pkg : String) : Prop :=
  ∀ pm ∈ mods, packagePathOf pm.2 ≠ pkg

instance (mods : List (String × Module)) (pkg : String) :
    Decidable (pkgUnresolved mods pkg) :=
  List.decidableBAll _ mods

/-- A conforming backend leaves queries into an unresolved package
undefined rather than erroneous: the package query, its deny query and
its warn query all return an empty result set. This is the documented
behaviour of the external rule-evaluation capability. -/
def Engine.undefinedOnUnresolved {α : Type} (engine : Engine α) : Prop :=
  ∀ pkg mods store input, pkgUnresolved mods pkg →
    engine.eval ("data." ++ pkg) mods store input = .ok none ∧
    engine.eval ("data." ++ pkg ++ ".deny") mods store input = .ok none ∧
    engine.eval ("data." ++ pkg ++ ".warn") mods store input = .ok none

/-- strings.HasSuffix: the path ends with the recognized policy file
extension. Written over the character list so it evaluates by
reduction. -/
def strHasSuffix (s t : String) : Bool :=
  s.data.drop (s.data.length - t.data.length) == t.data

/-- One entry visited by the recursive directory walk: its path, whether
it is a directory, and (for files) its content. -/
structure FsEntry where
  path : String
  isDir : Bool
  content : String
  deriving DecidableEq, Repr

/-- The walk callback of loadPolicies applied along one directory walk:
every non-directory entry whose path ends in .rego is read and parsed;
a parse failure stops the walk with an error naming the file; parsed
modules are recorded under their path. -/
def walkDir (parse : String → String → Except String Module) :
    List FsEntry → List (String × Module) → Except String (List (String × Module))
  | [], mods => .ok mods
  | entry :: rest, mods =>
    if entry.isDir = false ∧ strHasSuffix entry.path ".rego" = true then
      match parse entry.path entry.content with
      | .error err =>
        .error ("failed to parse policy file " ++ entry.path ++ ": " ++ err)
      | .ok m => walkDir parse rest (mods ++ [(entry.path, m)])
    else
      walkDir parse rest mods

/-- Evaluator.loadPolicies: walk each configured directory in turn,
wrapping a walk failure with the directory it came from. The file
system is the seam fsWalk, giving the entries the walk visits under a
root in walk order. -/
def loadPolicies (parse : String → String → Except String Module)
    (fsWalk : String → List FsEntry) :
    List String → List (String × Module) → Except String (List (String × Module))
  | [], mods => .ok mods
  | dir :: dirs, mods =>
    match walkDir parse (fsWalk dir) mods with
    | .error err => .error ("failed to load policies from " ++ dir ++ ": " ++ err)
    | .ok mods1 => loadPolicies parse fsWalk dirs mods1

/-- NewEvaluator of pkg/rego: build the evaluator state, load the
policies, and fail without an evaluator when loading fails. -/
def NewEvaluator (parse : String → String → Except String Module)
    (fsWalk : String → List FsEntry) (policyDirs : List String) :
    Except String Evaluator :=
  match loadPolicies parse fsWalk policyDirs [] with
  | .error err => .error err
  | .ok mods => .ok { policyDirs := policyDirs, modules := mods, store := Store.new }

/-- The group, version and kind of the resource under admission. -/
structure GroupVersionKind where
  Group : String
  Version : String
  Kind : String
  deriving DecidableEq, Repr

/-- The decoded admission request: the caller-supplied UID, the resource
identity, the operation, the raw new and old object payloads and the
caller options. -/
structure AdmissionRequest where
  UID : String
  Kind : GroupVersionKind
  Name : String
  Namespace : String
  Operation : String
  Object : String
  OldObject : String
  Options : String
  deriving DecidableEq, Repr

/-- The decoded AdmissionReview envelope, keeping the one field the
handler reads from it. -/
structure AdmissionReview where
  Request : AdmissionRequest
  deriving DecidableEq, Repr

/-- The response the handler encodes: the echoed UID, the decision, and
the status message when one is attached. -/
structure AdmissionResponse where
  UID : String
  Allowed : Bool
  Result : Option String
  deriving DecidableEq, Repr

/-- What the handler sends back: either an http.Error with a message and
status code, or an encoded AdmissionReview response. -/
inductive HandlerOutput where
  | httpError (message : String) (status : Nat)
  | review (response : AdmissionResponse)
  deriving DecidableEq, Repr

/-- The inbound HTTP request as the handler consumes it: the
Content-Type header and the body. -/
structure HttpRequest where
  contentType : String
  body : String
  deriving DecidableEq, Repr

/-- normalizeKind of controller/main.go. -/
def normalizeKind (kind : String) : String :=
  ⟨kind.data.map Char.toLower⟩

/-- The evaluation input document evaluateRequest assembles from the
request, a map embedded as a key-value list. -/
def buildInput (request : AdmissionRequest) : List (String × String) :=
  [("kind", request.Kind.Kind), ("name", request.Name),
   ("namespace", request.Namespace), ("operation", request.Operation),
   ("object", request.Object), ("oldObject", request.OldObject),
   ("parameters", request.Options)]

/-- The joining loop of evaluateRequest: the first message seeds the
reason and each later message is appended after the fixed delimiter. -/
def joinViolations : List Violation → String
  | [] => ""
  | v :: rest => rest.foldl (fun reason w => reason ++ "; " ++ w.Message) v.Message

/-- evaluateRequest of controller/main.go: build the input, derive the
package path from the normalized kind, evaluate, and either propagate
the wrapped evaluation error, deny with the joined violation messages,
or allow with an empty reason. -/
def evaluateRequest (e : Evaluator) (engine : Engine (List (String × String)))
    (request : AdmissionRequest) : Except String (Bool × String) :=
  let input := buildInput request
  let packagePath := "kubernetes.admission." ++ normalizeKind request.Kind.Kind
  match e.Evaluate engine packagePath input with
  | .error err => .error ("policy evaluation failed: " ++ err)
  | .ok result =>
    if result.Violations.length > 0 then
      .ok (false, joinViolations result.Violations)
    else
      .ok (true, "")

/-- handleAdmissionRequest of controller/main.go: reject a wrong
Content-Type with 415 before any decoding, reject an undecodable body
with 400, and otherwise answer with a response that echoes the request
UID and carries the decision: not allowed with a wrapped error message
when evaluation fails, not allowed with the joined reason when
violations exist, allowed with no status otherwise. -/
def handleAdmissionRequest (decode : String → Except String AdmissionReview)
    (e : Evaluator) (engine : Engine (List (String × String)))
    (req : HttpRequest) : HandlerOutput :=
  if req.contentType ≠ "application/json" then
    .httpError "Invalid Content-Type" 415
  else
    match decode req.body with
    | .error _ => .httpError "Invalid AdmissionReview request" 400
    | .ok reviewRequest =>
      match evaluateRequest e engine reviewRequest.Request with
      | .error err =>
        .review { UID := reviewRequest.Request.UID, Allowed := false,
                  Result := some ("Error evaluating request: " ++ err) }
      | .ok (allowed, reason) =>
        if allowed then
          .review { UID := reviewRequest.Request.UID, Allowed := true, Result := none }
        else
          .review { UID := reviewRequest.Request.UID, Allowed := false,
                    Result := some reason }

/-- Plain right-recursive join with the fixed delimiter, used to state
what the joining loop produces. -/
def joinMessages : List String → String
  | [] => ""
  | [m] => m
  | m :: rest => m ++ "; " ++ joinMessages rest

/-- Boolean lexicographic order on character lists. -/
def charListLe : List Char → List Char → Bool
  | [], _ => true
  | _ :: _, [] => false
  | a :: as, b :: bs =>
    if a.toNat < b.toNat then true
    else if b.toNat < a.toNat then false
    else charListLe as bs

/-- Boolean lexicographic order on strings. -/
def strLe (a b : String) : Bool :=
  charListLe a.data b.data

/-- Insert a string into a lexically sorted list. -/
def insertSorted (s : String) : List String → List String
  | [] => [s]
  | t :: ts => if strLe s t then s :: t :: ts else t :: insertSorted s ts

/-- Lexical insertion sort on message lists. -/
def sortMessages (msgs : List String) : List String :=
  msgs.foldr insertSorted []

/-- Modelled from the spec: the message the gateway would produce if it
applied a deterministic lexical sort to the violation messages before
joining them with the fixed delimiter. The handler in the source does
not do this; the definition exists to compare the two behaviours. -/
def joinSortedMessages (msgs : List String) : String :=
  joinMessages (sortMessages msgs)

/-! Concrete fixtures used by the closed theorems below. -/

/-- A sample decoded admission request for a pod creation. -/
def sampleRequest : AdmissionRequest :=
  { UID := "abc-123", Kind := ⟨"", "v1", "Pod"⟩, Name := "p",
    Namespace := "default", Operation := "CREATE",
    Object := "rawobj", OldObject := "", Options := "" }

/-- The review envelope wrapping the sample request. -/
def sampleReview : AdmissionReview := ⟨sampleRequest⟩

/-- A deserializer seam that decodes every body to the sample review. -/
def sampleDecode : String → Except String AdmissionReview :=
  fun _ => .ok sampleReview

/-- An evaluator with no loaded modules. -/
def emptyEvaluator : Evaluator :=
  { policyDirs := [], modules := [], store := Store.new }

/-- An evaluator with one module declaring the pod admission package. -/
def resolvedEvaluator : Evaluator :=
  { policyDirs := [],
    modules := [("pod.rego", ⟨["kubernetes", "admission", "pod"]⟩)],
    store := Store.new }

/-- A backend on which every query is undefined. -/
def engineNone : Engine (List (String × String)) :=
  ⟨fun _ _ _ _ => .ok none⟩

/-- A backend on which every query fails. -/
def engineErr : Engine (List (String × String)) :=
  ⟨fun _ _ _ _ => .error "boom"⟩

/-- A backend whose pod deny query produces the messages b then a, in
that order. -/
def engineDenyBA : Engine (List (String × String)) :=
  ⟨fun q _ _ _ =>
    if q = "data.kubernetes.admission.pod.deny" then .ok (some ["b", "a"])
    else .ok none⟩

/-- A backend whose pod warn query produces one message and whose deny
query is undefined. -/
def engineWarnOnly : Engine (List (String × String)) :=
  ⟨fun q _ _ _ =>
    if q = "data.kubernetes.admission.pod.warn" then .ok (some ["w"])
    else .ok none⟩

/-- A request with the expected Content-Type. -/
def jsonReq : HttpRequest := ⟨"application/json", "somebody"⟩

/-- The evaluation result with no findings. -/
def emptyResult : EvaluationResult := ⟨[], [], 0, 0, 0⟩

/-! Helper lemmas. -/

/-- The joining loop, started from any seed, produces the seed followed
by the remaining messages separated by the fixed delimiter. -/
theorem foldl_join (rest : List Violation) : ∀ acc : String,
    rest.foldl (fun reason w => reason ++ "; " ++ w.Message) acc
      = joinMessages (acc :: rest.map Violation.Message) := by
  induction rest with
  | nil => intro acc; simp [joinMessages]
  | cons w ws ih =>
    intro acc
    simp only [List.foldl_cons, List.map_cons]
    rw [ih]
    cases hws : ws.map Violation.Message with
    | nil => simp [joinMessages]
    | cons m ms => simp [joinMessages, String.append_assoc]

/-- The joining loop of evaluateRequest is the plain delimiter join of
the violation messages in their given order. -/
theorem joinViolations_eq (vs : List Violation) :
    joinViolations vs = joinMessages (vs.map Violation.Message) := by
  cases vs with
  | nil => rfl
  | cons v rest => simpa using foldl_join rest v.Message

/-! Claim theorems for the gateway. -/

/-- C10: a POST whose Content-Type is not exactly application/json is
answered with HTTP 415 Unsupported Media Type; the outcome does not
depend on the deserializer, the evaluator or the backend, so no
decoding and no policy evaluation takes place. -/
theorem contentType_gate_returns_415
    (decode : String → Except String AdmissionReview) (e : Evaluator)
    (engine : Engine (List (String × String))) (req : HttpRequest)
    (hct : req.contentType ≠ "application/json") :
    handleAdmissionRequest decode e engine req =
      .httpError "Invalid Content-Type" 415 := by
  simp [handleAdmissionRequest, hct]

/-- C10 witness: a JSON media type with a charset parameter is rejected
with 415. -/
theorem contentType_gate_returns_415_witness :
    handleAdmissionRequest sampleDecode emptyEvaluator engineNone
      ⟨"application/json; charset=utf-8", "somebody"⟩ =
      .httpError "Invalid Content-Type" 415 :=
  contentType_gate_returns_415 sampleDecode emptyEvaluator engineNone
    ⟨"application/json; charset=utf-8", "somebody"⟩ (by decide)

/-- C1: whenever the body decodes, the response echoes the UID of the
decoded request, whatever the decision and status turn out to be. -/
theorem response_echoes_request_uid
    (decode : String → Except String AdmissionReview) (e : Evaluator)
    (engine : Engine (List (String × String))) (req : HttpRequest)
    (review : AdmissionReview)
    (hct : req.contentType = "application/json")
    (hdec : decode req.body = .ok review) :
    ∃ allowed result,
      handleAdmissionRequest decode e engine req =
        .review { UID := review.Request.UID, Allowed := allowed,
                  Result := result } := by
  simp only [handleAdmissionRequest, hct, ne_eq, not_true_eq_false,
    if_false, hdec]
  cases h : evaluateRequest e engine review.Request with
  | error err => exact ⟨false, some ("Error evaluating request: " ++ err), rfl⟩
  | ok pair =>
    obtain ⟨allowed, reason⟩ := pair
    cases allowed with
    | false => exact ⟨false, some reason, by simp⟩
    | true => exact ⟨true, none, by simp⟩

/-- C1 witness: the sample request with uid abc-123 yields a response
carrying uid abc-123. -/
theorem response_echoes_request_uid_witness :
    ∃ allowed result,
      handleAdmissionRequest sampleDecode emptyEvaluator engineNone jsonReq =
        .review { UID := "abc-123", Allowed := allowed, Result := result } :=
  response_echoes_request_uid sampleDecode emptyEvaluator engineNone jsonReq
    sampleReview rfl rfl

/-- C2: when the rule evaluator fails on the routed package and input,
the gateway answers not allowed with a status message wrapping the
failure text; an evaluation failure never yields an allowed response. -/
theorem evaluator_error_fails_closed
    (decode : String → Except String AdmissionReview) (e : Evaluator)
    (engine : Engine (List (String × String))) (req : HttpRequest)
    (review : AdmissionReview) (msg : String)
    (hct : req.contentType = "application/json")
    (hdec : decode req.body = .ok review)
    (heval : e.Evaluate engine
        ("kubernetes.admission." ++ normalizeKind review.Request.Kind.Kind)
        (buildInput review.Request) = .error msg) :
    handleAdmissionRequest decode e engine req =
      .review { UID := review.Request.UID, Allowed := false,
                Result := some
                  ("Error evaluating request: policy evaluation failed: " ++ msg) } := by
  simp only [handleAdmissionRequest, hct, ne_eq, not_true_eq_false, if_false,
    hdec, evaluateRequest, heval]
  rw [← String.append_assoc]
  rfl

/-- C2 witness: a failing backend produces a not-allowed response whose
message wraps the failure. -/
theorem evaluator_error_fails_closed_witness :
    handleAdmissionRequest sampleDecode emptyEvaluator engineErr jsonReq =
      .review { UID := "abc-123", Allowed := false,
                Result := some ("Error evaluating request: policy evaluation failed: "
                  ++ "evaluation failed: boom") } :=
  evaluator_error_fails_closed sampleDecode emptyEvaluator engineErr jsonReq
    sampleReview "evaluation failed: boom" rfl rfl rfl

/-- C5: when evaluation succeeds with an empty violation set the gateway
allows with no status message, whatever the warning set holds. -/
theorem no_violations_allows
    (decode : String → Except String AdmissionReview) (e : Evaluator)
    (engine : Engine (List (String × String))) (req : HttpRequest)
    (review : AdmissionReview) (res : EvaluationResult)
    (hct : req.contentType = "application/json")
    (hdec : decode req.body = .ok review)
    (heval : e.Evaluate engine
        ("kubernetes.admission." ++ normalizeKind review.Request.Kind.Kind)
        (buildInput review.Request) = .ok res)
    (hnov : res.Violations = []) :
    handleAdmissionRequest decode e engine req =
      .review { UID := review.Request.UID, Allowed := true, Result := none } := by
  simp [handleAdmissionRequest, hct, hdec, evaluateRequest, heval, hnov]

/-- C5 witness: a backend that only produces a warning yields an allowed
response with no message, while the warning set of the evaluation is
non-empty. -/
theorem no_violations_allows_witness :
    handleAdmissionRequest sampleDecode emptyEvaluator engineWarnOnly jsonReq =
      .review { UID := "abc-123", Allowed := true, Result := none } ∧
    emptyEvaluator.Evaluate engineWarnOnly "kubernetes.admission.pod"
        (buildInput sampleRequest) =
      .ok { Violations := [],
            Warnings := [⟨"w", "WARNING", "kubernetes.admission.pod"⟩],
            PassCount := 0, FailCount := 0, WarnCount := 1 } :=
  ⟨no_violations_allows sampleDecode emptyEvaluator engineWarnOnly jsonReq
      sampleReview
      { Violations := [],
        Warnings := [⟨"w", "WARNING", "kubernetes.admission.pod"⟩],
        PassCount := 0, FailCount := 0, WarnCount := 1 }
      rfl rfl rfl rfl,
   rfl⟩

/-- C4 counterexample: with deny messages produced in the order b then
a, the gateway message is the unsorted join b; a, while the lexically
sorted join of the same messages is a; b. The handler applies no sort
before joining. -/
theorem sorted_join_counterexample :
    handleAdmissionRequest sampleDecode emptyEvaluator engineDenyBA jsonReq =
      .review { UID := "abc-123", Allowed := false, Result := some "b; a" } ∧
    joinSortedMessages ["b", "a"] = "a; b" ∧
    ("b; a" : String) ≠ "a; b" := by
  refine ⟨rfl, by decide, by decide⟩

/-- C4 (amended): when evaluation returns a non-empty violation set the
gateway responds not allowed with the violation messages joined by the
fixed delimiter in the order the evaluator returned them; no sort is
applied. -/
theorem violations_joined_in_evaluator_order
    (decode : String → Except String AdmissionReview) (e : Evaluator)
    (engine : Engine (List (String × String))) (req : HttpRequest)
    (review : AdmissionReview) (res : EvaluationResult)
    (hct : req.contentType = "application/json")
    (hdec : decode req.body = .ok review)
    (heval : e.Evaluate engine
        ("kubernetes.admission." ++ normalizeKind review.Request.Kind.Kind)
        (buildInput review.Request) = .ok res)
    (hv : res.Violations ≠ []) :
    handleAdmissionRequest decode e engine req =
      .review { UID := review.Request.UID, Allowed := false,
                Result := some (joinMessages (res.Violations.map Violation.Message)) } := by
  have hlen : res.Violations.length > 0 := List.length_pos.mpr hv
  simp [handleAdmissionRequest, hct, hdec, evaluateRequest, heval, hlen,
    joinViolations_eq]

/-- C4 witness: two violations produce the joined message in evaluator
order. -/
theorem violations_joined_in_evaluator_order_witness :
    handleAdmissionRequest sampleDecode emptyEvaluator engineDenyBA jsonReq =
      .review { UID := "abc-123", Allowed := false,
                Result := some (joinMessages ["b", "a"]) } :=
  violations_joined_in_evaluator_order sampleDecode emptyEvaluator engineDenyBA
    jsonReq sampleReview
    { Violations := [⟨"b", "ERROR", "kubernetes.admission.pod"⟩,
                     ⟨"a", "ERROR", "kubernetes.admission.pod"⟩],
      Warnings := [], PassCount := 0, FailCount := 2, WarnCount := 0 }
    rfl rfl rfl (by decide)

/-! Claim theorems for the rule evaluator. -/

/-- C3 (amended): evaluating a package no loaded module declares, on a
backend that leaves unresolved packages undefined, is not an error and
returns the evaluation result with zero violations and zero warnings.
The result carries no resolved flag. -/
theorem unresolved_package_empty_result {α : Type} (e : Evaluator)
    (engine : Engine α) (packagePath : String) (input : α)
    (hengine : engine.undefinedOnUnresolved)
    (hunres : pkgUnresolved e.modules packagePath) :
    e.Evaluate engine packagePath input =
      .ok { Violations := [], Warnings := [],
            PassCount := 0, FailCount := 0, WarnCount := 0 } := by
  obtain ⟨h1, h2, h3⟩ := hengine packagePath e.modules e.store input hunres
  simp [Evaluator.Evaluate, h1, h2, h3, extractMessages]

/-- C3 witness: the empty evaluator resolves no package, and evaluation
returns the empty result without error. -/
theorem unresolved_package_empty_result_witness :
    emptyEvaluator.Evaluate engineNone "kubernetes.admission.pod"
        ([] : List (String × String)) =
      .ok { Violations := [], Warnings := [],
            PassCount := 0, FailCount := 0, WarnCount := 0 } :=
  unresolved_package_empty_result emptyEvaluator engineNone
    "kubernetes.admission.pod" [] (fun _ _ _ _ _ => ⟨rfl, rfl, rfl⟩) (by decide)

/-- C3 counterexample: the result of evaluating an unresolved package
equals, component for component, the result of evaluating a resolved
package that produced no findings, so no field of the result
distinguishes the two cases; the claimed resolved flag does not
exist. -/
theorem unresolved_flag_counterexample :
    emptyEvaluator.Evaluate engineNone "kubernetes.admission.pod"
        ([] : List (String × String)) =
      resolvedEvaluator.Evaluate engineNone "kubernetes.admission.pod"
        ([] : List (String × String)) ∧
    pkgUnresolved emptyEvaluator.modules "kubernetes.admission.pod" ∧
    ¬ pkgUnresolved resolvedEvaluator.modules "kubernetes.admission.pod" := by
  refine ⟨rfl, by decide, by decide⟩

/-- C8: evaluation of a fixed snapshot, package and input is a function
of those arguments, so two calls return the same violation list and the
same warning list. -/
theorem evaluate_deterministic {α : Type} (e : Evaluator) (engine : Engine α)
    (packagePath : String) (input : α) (r1 r2 : EvaluationResult)
    (h1 : e.Evaluate engine packagePath input = .ok r1)
    (h2 : e.Evaluate engine packagePath input = .ok r2) :
    r1.Violations = r2.Violations ∧ r1.Warnings = r2.Warnings := by
  rw [h1] at h2
  injection h2 with h
  subst h
  exact ⟨rfl, rfl⟩

/-- C8 witness: two evaluations of the empty evaluator both return the
empty result. -/
theorem evaluate_deterministic_witness :
    emptyResult.Violations = emptyResult.Violations ∧
    emptyResult.Warnings = emptyResult.Warnings :=
  evaluate_deterministic emptyEvaluator engineNone "p"
    ([] : List (String × String)) emptyResult emptyResult rfl rfl

/-- C9: the state-passing form of Evaluate returns the evaluator with
its module map and store unchanged, and its result agrees with
Evaluate; no call mutates the snapshot. -/
theorem evaluate_no_mutation {α : Type} (e : Evaluator) (engine : Engine α)
    (packagePath : String) (input : α) :
    (e.EvaluateSt engine packagePath input).2.modules = e.modules ∧
    (e.EvaluateSt engine packagePath input).2.store = e.store ∧
    (e.EvaluateSt engine packagePath input).1 =
      e.Evaluate engine packagePath input := by
  unfold Evaluator.EvaluateSt Evaluator.Evaluate
  cases h1 : engine.eval ("data." ++ packagePath) e.modules e.store input with
  | error err => exact ⟨rfl, rfl, rfl⟩
  | ok v =>
    cases h2 : engine.eval ("data." ++ packagePath ++ ".deny") e.modules e.store input with
    | error err => exact ⟨rfl, rfl, rfl⟩
    | ok dv =>
      cases h3 : engine.eval ("data." ++ packagePath ++ ".warn") e.modules e.store input with
      | error err => exact ⟨rfl, rfl, rfl⟩
      | ok wv => exact ⟨rfl, rfl, rfl⟩

/-! Loader lemmas and claim C6. -/

/-- An entry is a failing policy file when it is a non-directory rego
file whose content does not parse. -/
def failingEntry (parse : String → String → Except String Module)
    (f : FsEntry) (perr : String) : Prop :=
  f.isDir = false ∧ strHasSuffix f.path ".rego" = true ∧
    parse f.path f.content = .error perr

/-- A walk error always comes from a failing policy file among the
visited entries, and its message names that file. -/
theorem walkDir_error_shape (parse : String → String → Except String Module) :
    ∀ (entries : List FsEntry) (mods : List (String × Module)) (msg : String),
    walkDir parse entries mods = .error msg →
    ∃ f perr, f ∈ entries ∧ failingEntry parse f perr ∧
      msg = "failed to parse policy file " ++ f.path ++ ": " ++ perr := by
  intro entries
  induction entries with
  | nil => intro mods msg h; simp [walkDir] at h
  | cons entry rest ih =>
    intro mods msg h
    simp only [walkDir] at h
    split at h
    · rename_i hcond
      cases hp : parse entry.path entry.content with
      | error perr =>
        rw [hp] at h
        simp only [Except.error.injEq] at h
        exact ⟨entry, perr, List.mem_cons_self _ _,
          ⟨hcond.1, hcond.2, hp⟩, h.symm⟩
      | ok m =>
        rw [hp] at h
        obtain ⟨f, perr, hf, hfail, hmsg⟩ := ih _ _ h
        exact ⟨f, perr, List.mem_cons_of_mem _ hf, hfail, hmsg⟩
    · rename_i hcond
      obtain ⟨f, perr, hf, hfail, hmsg⟩ := ih _ _ h
      exact ⟨f, perr, List.mem_cons_of_mem _ hf, hfail, hmsg⟩

/-- A failing policy file among the visited entries forces the walk to
return an error. -/
theorem walkDir_error_of_bad (parse : String → String → Except String Module) :
    ∀ (entries : List FsEntry) (mods : List (String × Module))
      (f : FsEntry) (perr : String),
    f ∈ entries → failingEntry parse f perr →
    ∃ msg, walkDir parse entries mods = .error msg := by
  intro entries
  induction entries with
  | nil => intro mods f perr hf; cases hf
  | cons entry rest ih =>
    intro mods f perr hf hfail
    simp only [walkDir]
    split
    · rename_i hcond
      cases hp : parse entry.path entry.content with
      | error e2 => exact ⟨_, rfl⟩
      | ok m =>
        rcases List.mem_cons.mp hf with heq | hmem
        · subst heq
          rw [hfail.2.2] at hp
          cases hp
        · exact ih _ f perr hmem hfail
    · rename_i hcond
      rcases List.mem_cons.mp hf with heq | hmem
      · subst heq
        exact absurd ⟨hfail.1, hfail.2.1⟩ hcond
      · exact ih _ f perr hmem hfail

/-- When some configured directory holds a failing policy file, loading
returns an error naming a failing file and its directory. -/
theorem loadPolicies_error (parse : String → String → Except String Module)
    (fsWalk : String → List FsEntry) :
    ∀ (dirs : List String) (mods : List (String × Module)),
    (∃ d ∈ dirs, ∃ f ∈ fsWalk d, ∃ perr, failingEntry parse f perr) →
    ∃ d f perr, d ∈ dirs ∧ f ∈ fsWalk d ∧ failingEntry parse f perr ∧
      loadPolicies parse fsWalk dirs mods =
        .error ("failed to load policies from " ++ d ++ ": " ++
          ("failed to parse policy file " ++ f.path ++ ": " ++ perr)) := by
  intro dirs
  induction dirs with
  | nil =>
    intro mods h
    obtain ⟨d, hd, _⟩ := h
    cases hd
  | cons dir rest ih =>
    intro mods h
    simp only [loadPolicies]
    cases hw : walkDir parse (fsWalk dir) mods with
    | error msg =>
      obtain ⟨f, perr, hf, hfail, hmsg⟩ :=
        walkDir_error_shape parse (fsWalk dir) mods msg hw
      subst hmsg
      exact ⟨dir, f, perr, List.mem_cons_self _ _, hf, hfail, rfl⟩
    | ok mods1 =>
      obtain ⟨d, hd, f, hf, perr, hfail⟩ := h
      rcases List.mem_cons.mp hd with heq | hmem
      · subst heq
        obtain ⟨msg, hmsg⟩ :=
          walkDir_error_of_bad parse (fsWalk d) mods f perr hf hfail
        rw [hmsg] at hw
        cases hw
      · obtain ⟨d2, f2, perr2, hd2, hf2, hfail2, heq2⟩ :=
          ih mods1 ⟨d, hmem, f, hf, perr, hfail⟩
        exact ⟨d2, f2, perr2, List.mem_cons_of_mem _ hd2, hf2, hfail2, heq2⟩

/-- C6: a parse failure in any single policy file with the recognized
extension aborts the entire load: NewEvaluator returns an error whose
message names the offending file, and no evaluator is constructed. -/
theorem load_aborts_on_parse_failure
    (parse : String → String → Except String Module)
    (fsWalk : String → List FsEntry) (policyDirs : List String)
    (h : ∃ d ∈ policyDirs, ∃ f ∈ fsWalk d, ∃ perr, failingEntry parse f perr) :
    ∃ d f perr, d ∈ policyDirs ∧ f ∈ fsWalk d ∧ failingEntry parse f perr ∧
      NewEvaluator parse fsWalk policyDirs =
        .error ("failed to load policies from " ++ d ++ ": " ++
          ("failed to parse policy file " ++ f.path ++ ": " ++ perr)) := by
  obtain ⟨d, f, perr, hd, hf, hfail, heq⟩ :=
    loadPolicies_error parse fsWalk policyDirs [] h
  refine ⟨d, f, perr, hd, hf, hfail, ?_⟩
  simp only [NewEvaluator, heq]

/-- A parser seam for the loader witness: the content bad does not
parse, everything else parses to a module in package a. -/
def badParse : String → String → Except String Module :=
  fun _ content =>
    if content = "bad" then .error "unexpected token" else .ok ⟨["a"]⟩

/-- A file-system seam for the loader witness: one directory holding a
good and a broken rego file. -/
def sampleFs : String → List FsEntry :=
  fun d =>
    if d = "policies" then
      [⟨"policies/ok.rego", false, "good"⟩,
       ⟨"policies/broken.rego", false, "bad"⟩]
    else []

/-- C6 witness: with a broken rego file present, NewEvaluator returns an
error naming a failing file. -/
theorem load_aborts_on_parse_failure_witness :
    ∃ d f perr, d ∈ ["policies"] ∧ f ∈ sampleFs d ∧
      failingEntry badParse f perr ∧
      NewEvaluator badParse sampleFs ["policies"] =
        .error ("failed to load policies from " ++ d ++ ": " ++
          ("failed to parse policy file " ++ f.path ++ ": " ++ perr)) :=
  load_aborts_on_parse_failure badParse sampleFs ["policies"]
    ⟨"policies", by decide, ⟨"policies/broken.rego", false, "bad"⟩, by decide,
     "unexpected token", by decide, by decide, rfl⟩

/-! Batch evaluator lemmas and claim C7. -/

/-- When every package in the list evaluates successfully, the loop
returns one result per package, each the evaluation of that package
with the same input. -/
theorem evalPackageList_ok_of_all {α : Type} (e : Evaluator)
    (engine : Engine α) (input : α) :
    ∀ ps : List String,
    (∀ p ∈ ps, ∃ r, e.Evaluate engine p input = .ok r) →
    ∃ rs, evalPackageList e engine input ps = .ok rs ∧
      List.Forall₂ (fun p r => e.Evaluate engine p input = Except.ok r) ps rs := by
  intro ps
  induction ps with
  | nil => intro _; exact ⟨[], rfl, List.Forall₂.nil⟩
  | cons p ps ih =>
    intro h
    obtain ⟨r, hr⟩ := h p (List.mem_cons_self _ _)
    obtain ⟨rs, hrs, hall⟩ := ih (fun q hq => h q (List.mem_cons_of_mem _ hq))
    refine ⟨r :: rs, ?_, List.Forall₂.cons hr hall⟩
    simp only [evalPackageList, hr, hrs]

/-- When some package in the list fails to evaluate, the loop returns an
error. -/
theorem evalPackageList_error_of_bad {α : Type} (e : Evaluator)
    (engine : Engine α) (input : α) :
    ∀ ps : List String,
    (∃ p ∈ ps, ∃ msg, e.Evaluate engine p input = .error msg) →
    ∃ msg2, evalPackageList e engine input ps = .error msg2 := by
  intro ps
  induction ps with
  | nil =>
    intro h
    obtain ⟨p, hp, _⟩ := h
    cases hp
  | cons p ps ih =>
    intro h
    simp only [evalPackageList]
    cases he : e.Evaluate engine p input with
    | error msg => exact ⟨_, rfl⟩
    | ok r =>
      obtain ⟨q, hq, msg, hmsg⟩ := h
      rcases List.mem_cons.mp hq with heq | hmem
      · subst heq
        rw [hmsg] at he
        cases he
      · obtain ⟨msg2, hmsg2⟩ := ih ⟨q, hmem, msg, hmsg⟩
        rw [hmsg2]
        exact ⟨msg2, rfl⟩

/-- C7 (amended): EvaluateAll visits the distinct package paths of the
loaded modules, a list without duplicates containing exactly the
declared paths; when every package evaluates successfully it returns
one result per distinct package, each the evaluation of that package
with the same input; when any package fails to evaluate it returns an
error, aborting the remaining packages and returning no results. -/
theorem evaluateAll_per_package {α : Type} (e : Evaluator)
    (engine : Engine α) (input : α) :
    (distinctPackagePaths e).Nodup ∧
    (∀ p, p ∈ distinctPackagePaths e ↔
      ∃ pm ∈ e.modules, packagePathOf pm.2 = p) ∧
    ((∀ p ∈ distinctPackagePaths e, ∃ r, e.Evaluate engine p input = .ok r) →
      ∃ rs, e.EvaluateAll engine input = .ok rs ∧
        List.Forall₂ (fun p r => e.Evaluate engine p input = Except.ok r)
          (distinctPackagePaths e) rs) ∧
    ((∃ p ∈ distinctPackagePaths e, ∃ msg,
        e.Evaluate engine p input = .error msg) →
      ∃ msg, e.EvaluateAll engine input = .error msg) := by
  refine ⟨List.nodup_dedup _, ?_, ?_, ?_⟩
  · intro p
    simp [distinctPackagePaths, List.mem_dedup, List.mem_map]
  · exact evalPackageList_ok_of_all e engine input (distinctPackagePaths e)
  · exact evalPackageList_error_of_bad e engine input (distinctPackagePaths e)

/-- C7 witness: on the one-package evaluator the success branch gives
one result and the failure branch gives an error. -/
theorem evaluateAll_per_package_witness :
    (∃ rs, resolvedEvaluator.EvaluateAll engineNone
        ([] : List (String × String)) = .ok rs ∧
      List.Forall₂
        (fun p r => resolvedEvaluator.Evaluate engineNone p
          ([] : List (String × String)) = Except.ok r)
        (distinctPackagePaths resolvedEvaluator) rs) ∧
    (∃ msg, resolvedEvaluator.EvaluateAll engineErr
        ([] : List (String × String)) = .error msg) :=
  ⟨(evaluateAll_per_package resolvedEvaluator engineNone []).2.2.1
      (by
        intro p hp
        have hsing : distinctPackagePaths resolvedEvaluator =
            ["kubernetes.admission.pod"] := by decide
        rw [hsing] at hp
        rw [List.mem_singleton.mp hp]
        exact ⟨emptyResult, rfl⟩),
   (evaluateAll_per_package resolvedEvaluator engineErr []).2.2.2
      ⟨"kubernetes.admission.pod", by decide, "evaluation failed: boom", rfl⟩⟩

/-- An evaluator with two modules declaring packages a and b. -/
def twoPkgEvaluator : Evaluator :=
  { policyDirs := [],
    modules := [("a.rego", ⟨["a"]⟩), ("b.rego", ⟨["b"]⟩)],
    store := Store.new }

/-- A backend that fails exactly on the package query of a and leaves
every other query undefined. -/
def engineErrOnA : Engine Unit :=
  ⟨fun q _ _ _ => if q = "data.a" then .error "boom" else .ok none⟩

/-- C7 counterexample: with packages a and b loaded and a backend that
fails only on a, EvaluateAll returns a single error and no result list
at all, although package b on its own evaluates successfully: the
per-package error aborts the remaining packages. -/
theorem evaluateAll_aborts_counterexample :
    twoPkgEvaluator.EvaluateAll engineErrOnA () =
      .error "failed to evaluate package a: evaluation failed: boom" ∧
    twoPkgEvaluator.Evaluate engineErrOnA "b" () =
      .ok { Violations := [], Warnings := [],
            PassCount := 0, FailCount := 0, WarnCount := 0 } := by
  refine ⟨rfl, rfl⟩

end GcpGuardrail
